import Mathlib

/-!
Verification development for the kitty repository: a shallow embedding of

* the GLSL fragment shader in `src/christmas_tree.cpp` (the SceneShader:
  per-pixel evaluation of trunk, three foliage layers, twelve lights, star,
  edge glow and vignette, over the fixed 200x280 resolution), modelled over
  the real numbers with the GLSL builtins spelled out, and
* the starfield generator in `src/parallax.cpp` (star count and uniform
  position sampling), modelled over the integers with the random source
  abstracted as a sampler that returns values inside the requested range.

Definitions mirror the source line by line; theorems settle the frozen
claims about them.
-/

namespace Kitty

noncomputable section

/-- GLSL fract: fract(x) = x - floor(x). -/
def fract (x : ℝ) : ℝ := x - ⌊x⌋

/-- GLSL clamp: clamp(x, lo, hi) = min(max(x, lo), hi). -/
def clamp (x lo hi : ℝ) : ℝ := min (max x lo) hi

/-- GLSL smoothstep: Hermite interpolation of the clamped ramp between the
two edges.  The shader also calls it with reversed edges (edge0 > edge1),
which this formula covers. -/
def smoothstep (e0 e1 x : ℝ) : ℝ :=
  let t := clamp ((x - e0) / (e1 - e0)) 0 1
  t * t * (3 - 2 * t)

/-- GLSL mix on scalars: mix(a, b, t) = a*(1-t) + b*t. -/
def mixR (a b t : ℝ) : ℝ := a * (1 - t) + b * t

/-- GLSL sign. -/
def gsign (x : ℝ) : ℝ := if 0 < x then 1 else if x < 0 then -1 else 0

/-- GLSL length of a 2-vector. -/
def length2 (v : ℝ × ℝ) : ℝ := Real.sqrt (v.1 ^ 2 + v.2 ^ 2)

/-- GLSL distance of 2-vectors. -/
def dist2 (a b : ℝ × ℝ) : ℝ := length2 (a.1 - b.1, a.2 - b.2)

/-- GLSL two-argument atan(y, x).  GLSL leaves the value at (0,0)
unspecified; 0 is used there, matching common hardware.  No claim below
depends on the value of this function, only on boundedness of its sine. -/
def atan2 (y x : ℝ) : ℝ :=
  if 0 < x then Real.arctan (y / x)
  else if x < 0 then
    if 0 ≤ y then Real.arctan (y / x) + Real.pi else Real.arctan (y / x) - Real.pi
  else if 0 < y then Real.pi / 2
  else if y < 0 then -(Real.pi / 2)
  else 0

/-- An RGB triple (GLSL vec3). -/
@[ext]
structure Vec3 where
  x : ℝ
  y : ℝ
  z : ℝ

/-- Componentwise vec3 addition. -/
def Vec3.add (a b : Vec3) : Vec3 := ⟨a.x + b.x, a.y + b.y, a.z + b.z⟩

/-- Scalar times vec3. -/
def Vec3.smul (c : ℝ) (v : Vec3) : Vec3 := ⟨c * v.x, c * v.y, c * v.z⟩

/-- GLSL mix on vec3, componentwise. -/
def mix3 (a b : Vec3) (t : ℝ) : Vec3 := ⟨mixR a.x b.x t, mixR a.y b.y t, mixR a.z b.z t⟩

/-- The shader's index hash (line 50): fract(sin(n) * 43758.5453123). -/
def hash (n : ℝ) : ℝ := fract (Real.sin n * 43758.5453123)

/-- Config::WIDTH, fed as uResolution.x. -/
def WIDTH : ℝ := 200

/-- Config::HEIGHT, fed as uResolution.y. -/
def HEIGHT : ℝ := 280

/-- aspect = uResolution.x / uResolution.y (line 56). -/
def aspect : ℝ := WIDTH / HEIGHT

/-- rotAngle = time * 0.5 (line 65). -/
def rotAngle (t : ℝ) : ℝ := t * 0.5

/-- rotPhase = sin(rotAngle) (line 66). -/
def rotPhase (t : ℝ) : ℝ := Real.sin (rotAngle t)

/-- Centered, aspect-corrected pixel coordinate (lines 59-60):
p = uv - (0.5, 0.35), then p.x *= aspect. -/
def pixelP (uv : ℝ × ℝ) : ℝ × ℝ := ((uv.1 - 0.5) * aspect, uv.2 - 0.35)

/-- trunkHeight (line 73). -/
def trunkHeight : ℝ := 0.08

/-- trunkWidth (line 74). -/
def trunkWidth : ℝ := 0.045

/-- trunkTop (line 82). -/
def trunkTop : ℝ := -0.22

/-- trunkBottom = trunkTop - trunkHeight (line 83). -/
def trunkBottom : ℝ := trunkTop - trunkHeight

/-- layer1Bottom (line 97). -/
def layer1Bottom : ℝ := -0.24

/-- layer1Top = layer1Bottom + 0.28 (line 98). -/
def layer1Top : ℝ := layer1Bottom + 0.28

/-- layer1Width (line 99). -/
def layer1Width : ℝ := 0.26

/-- layer2Bottom = layer1Bottom + 0.15 (line 102). -/
def layer2Bottom : ℝ := layer1Bottom + 0.15

/-- layer2Top = layer2Bottom + 0.26 (line 103). -/
def layer2Top : ℝ := layer2Bottom + 0.26

/-- layer2Width (line 104). -/
def layer2Width : ℝ := 0.21

/-- layer3Bottom = layer2Bottom + 0.14 (line 107). -/
def layer3Bottom : ℝ := layer2Bottom + 0.14

/-- layer3Top = layer3Bottom + 0.24 (line 108). -/
def layer3Top : ℝ := layer3Bottom + 0.24

/-- layer3Width (line 109). -/
def layer3Width : ℝ := 0.16

/-- Vertical band test of foliage layer 1 (line 113). -/
def inLayer1Band (py : ℝ) : Prop := layer1Bottom < py ∧ py < layer1Top

/-- Vertical band test of foliage layer 2 (line 128). -/
def inLayer2Band (py : ℝ) : Prop := layer2Bottom < py ∧ py < layer2Top

/-- Vertical band test of foliage layer 3 (line 143). -/
def inLayer3Band (py : ℝ) : Prop := layer3Bottom < py ∧ py < layer3Top

/-- The running (color, alpha) accumulator starts at (vec3(0), 0)
(lines 76-77). -/
def acc0 : Vec3 × ℝ := (⟨0, 0, 0⟩, 0)

/-- Trunk stage (lines 85-90): inside the trunk rectangle the color is
overwritten with shaded brown and alpha with the smoothed edge function. -/
def trunkStage (p : ℝ × ℝ) (rp : ℝ) (acc : Vec3 × ℝ) : Vec3 × ℝ :=
  if trunkBottom < p.2 ∧ p.2 < trunkTop ∧ |p.1| < trunkWidth then
    let trunkShade := 0.7 + 0.3 * rp * (p.1 / trunkWidth)
    (Vec3.smul trunkShade ⟨0.4, 0.22, 0.1⟩,
     smoothstep trunkWidth (trunkWidth - 0.01) |p.1|)
  else acc

/-- One foliage layer stage (lines 113-125, 128-140, 143-155), with the
layer's bottom/top/width as parameters. -/
def layerStage (bottom top width : ℝ) (p : ℝ × ℝ) (rp : ℝ) (acc : Vec3 × ℝ) :
    Vec3 × ℝ :=
  if bottom < p.2 ∧ p.2 < top then
    let heightNorm := (p.2 - bottom) / (top - bottom)
    let layerWidth := width * (1 - heightNorm)
    if |p.1| < layerWidth then
      let shade := (0.6 + 0.4 * (0.5 + 0.5 * rp * (p.1 / max layerWidth 0.01))) *
        (0.85 + 0.15 * heightNorm)
      let treeGreen := Vec3.add (mix3 ⟨0.0, 0.18, 0.1⟩ ⟨0.0, 0.45, 0.25⟩ shade)
        (Vec3.smul ((1 - |p.1| / layerWidth) * 0.5) ⟨0.0, 0.15, 0.08⟩)
      let edgeSoftness := smoothstep layerWidth (layerWidth - 0.015) |p.1|
      (treeGreen, max acc.2 edgeSoftness)
    else acc
  else acc

/-- The 8 light base colors (lines 161-168). -/
def lightColor (i : ℕ) : Vec3 :=
  match i with
  | 0 => ⟨1.0, 0.15, 0.5⟩
  | 1 => ⟨0.0, 1.0, 1.0⟩
  | 2 => ⟨1.0, 0.85, 0.0⟩
  | 3 => ⟨0.65, 0.1, 1.0⟩
  | 4 => ⟨0.2, 1.0, 0.45⟩
  | 5 => ⟨1.0, 0.45, 0.0⟩
  | 6 => ⟨0.2, 0.6, 1.0⟩
  | _ => ⟨1.0, 0.05, 0.65⟩

/-- The 12 hand-placed light anchor positions (lines 172-183). -/
def lightPos0 (i : ℕ) : ℝ × ℝ :=
  match i with
  | 0 => (-0.12, -0.15)
  | 1 => (0.10, -0.10)
  | 2 => (-0.06, -0.02)
  | 3 => (0.14, -0.18)
  | 4 => (-0.08, 0.08)
  | 5 => (0.06, 0.02)
  | 6 => (-0.03, 0.15)
  | 7 => (0.09, 0.10)
  | 8 => (-0.05, 0.22)
  | 9 => (0.04, 0.18)
  | 10 => (-0.02, 0.28)
  | _ => (0.02, 0.25)

/-- Jittered light position (lines 186-189):
lightPos.x += sin(rotAngle + i*0.5) * 0.015. -/
def lightPosAt (t : ℝ) (i : ℕ) : ℝ × ℝ :=
  ((lightPos0 i).1 + Real.sin (rotAngle t + (i : ℝ) * 0.5) * 0.015, (lightPos0 i).2)

/-- blinkPhase = i*0.8 + hash(i)*6.28 (line 194). -/
def blinkPhase (i : ℕ) : ℝ := (i : ℝ) * 0.8 + hash (i : ℝ) * 6.28

/-- blinkSpeed = 2.0 + hash(i + 5.0)*2.0 (line 195). -/
def blinkSpeed (i : ℕ) : ℝ := 2.0 + hash ((i : ℝ) + 5.0) * 2.0

/-- One iteration of the lights loop (lines 185-213).  Besides the updated
(color, alpha) accumulator it also returns the blink value before the
side-visibility factor (line 196) and after it (line 200), so the claims
about the blink pattern can talk about exactly the values the loop uses. -/
def lightEval (p : ℝ × ℝ) (t : ℝ) (i : ℕ) (acc : Vec3 × ℝ) :
    (Vec3 × ℝ) × ℝ × ℝ :=
  let lp := lightPosAt t i
  let d := dist2 p lp
  let blinkPre := 0.3 + 0.7 * (0.5 + 0.5 * Real.sin (t * blinkSpeed i + blinkPhase i)) ^ 2
  let sideVis := 0.5 + 0.5 * gsign lp.1 * rotPhase t
  let blink := blinkPre * (0.3 + 0.7 * sideVis)
  let lightCore := smoothstep 0.025 0.005 d * blink
  let lightGlow := smoothstep 0.07 0.01 d * blink * 0.5
  let thisColor := lightColor (i - i / 8 * 8)
  ((Vec3.add (mix3 acc.1 thisColor lightCore) (Vec3.smul lightGlow thisColor),
    max acc.2 (lightCore + lightGlow * 0.5)), blinkPre, blink)

/-- The accumulator part of one lights-loop iteration. -/
def lightBody (p : ℝ × ℝ) (t : ℝ) (i : ℕ) (acc : Vec3 × ℝ) : Vec3 × ℝ :=
  (lightEval p t i acc).1

/-- The whole lights loop: for (int i = 0; i < 12; i++) (line 185). -/
def lightsStage (p : ℝ × ℝ) (t : ℝ) (acc : Vec3 × ℝ) : Vec3 × ℝ :=
  (List.range 12).foldl (fun a i => lightBody p t i a) acc

/-- starPos (line 218). -/
def starPos : ℝ × ℝ := (0, 0.38)

/-- starPulse = 0.8 + 0.2*sin(time*3.0) (line 222). -/
def starPulse (t : ℝ) : ℝ := 0.8 + 0.2 * Real.sin (t * 3.0)

/-- starAngle = atan(p.y - starPos.y, p.x - starPos.x) (line 225). -/
def starAngleAt (p : ℝ × ℝ) : ℝ := atan2 (p.2 - starPos.2) (p.1 - starPos.1)

/-- starShape (lines 226-227), after the *= starPulse. -/
def starShapeAt (p : ℝ × ℝ) (t : ℝ) : ℝ :=
  (0.025 + 0.015 * |Real.sin (starAngleAt p * 2.5 + 0.5)| ^ 2) * starPulse t

/-- star = smoothstep(starShape, starShape*0.3, starDist) (line 229). -/
def starBodyAt (p : ℝ × ℝ) (t : ℝ) : ℝ :=
  smoothstep (starShapeAt p t) (starShapeAt p t * 0.3) (dist2 p starPos)

/-- starGlow = smoothstep(0.1, 0.0, starDist) * 0.6 * starPulse (line 232). -/
def starGlowAt (p : ℝ × ℝ) (t : ℝ) : ℝ :=
  smoothstep 0.1 0.0 (dist2 p starPos) * 0.6 * starPulse t

/-- starRays = smoothstep(0.12, 0.02, starDist) * rays * 0.4 * starPulse
(lines 235-236), with rays = pow(abs(sin(starAngle*5.0 + time*1.2)), 4.0). -/
def starRaysAt (p : ℝ × ℝ) (t : ℝ) : ℝ :=
  smoothstep 0.12 0.02 (dist2 p starPos) *
    |Real.sin (starAngleAt p * 5.0 + t * 1.2)| ^ 4 * 0.4 * starPulse t

/-- Star stage (lines 218-244): pulsing 5-pointed silhouette, soft glow and
rotating rays; color blended in (gold for glow/rays, gold-white mix for the
body), alpha joined by max of the summed star intensities. -/
def starStage (p : ℝ × ℝ) (t : ℝ) (acc : Vec3 × ℝ) : Vec3 × ℝ :=
  (mix3 (mix3 acc.1 ⟨1.0, 0.85, 0.1⟩ (starGlowAt p t + starRaysAt p t))
    (mix3 ⟨1.0, 0.85, 0.1⟩ ⟨1.0, 1.0, 0.95⟩ 0.7) (starBodyAt p t),
   max acc.2 (starBodyAt p t + starGlowAt p t * 0.8 + starRaysAt p t * 0.5))

/-- Edge-glow stage (lines 249-252): strictly between the alpha thresholds
0.1 and 0.95 a teal tint proportional to (1 - alpha) is added to the color;
alpha itself is unchanged. -/
def edgeGlowStage (acc : Vec3 × ℝ) : Vec3 × ℝ :=
  if 0.1 < acc.2 ∧ acc.2 < 0.95 then
    (Vec3.add acc.1 (Vec3.smul ((1 - acc.2) * 0.3) ⟨0.0, 0.9, 0.5⟩), acc.2)
  else acc

/-- The edge-glow color contribution as a function of the accumulated
alpha: what line 251 adds to finalColor (zero outside the guard). -/
def edgeGlowTerm (a : ℝ) : Vec3 :=
  if 0.1 < a ∧ a < 0.95 then Vec3.smul ((1 - a) * 0.3) ⟨0.0, 0.9, 0.5⟩ else ⟨0, 0, 0⟩

/-- Vignette factor (line 259): 1 - smoothstep(0.4, 0.7, length(uv - 0.5)). -/
def vignette (uv : ℝ × ℝ) : ℝ := 1 - smoothstep 0.4 0.7 (dist2 uv (0.5, 0.5))

/-- All shape stages in source order (trunk, three layers, lights, star):
the accumulator just before the edge-glow test, i.e. the pre-vignette
alpha of the spec. -/
def shapes (uv : ℝ × ℝ) (t : ℝ) : Vec3 × ℝ :=
  let p := pixelP uv
  starStage p t
    (lightsStage p t
      (layerStage layer3Bottom layer3Top layer3Width p (rotPhase t)
        (layerStage layer2Bottom layer2Top layer2Width p (rotPhase t)
          (layerStage layer1Bottom layer1Top layer1Width p (rotPhase t)
            (trunkStage p (rotPhase t) acc0)))))

/-- The full per-pixel evaluation (main, lines 54-262): shapes, edge glow,
then alpha multiplied by the vignette; the result is FragColor. -/
def sceneFrag (uv : ℝ × ℝ) (t : ℝ) : Vec3 × ℝ :=
  let s := edgeGlowStage (shapes uv t)
  (s.1, s.2 * vignette uv)

/-- FragColor rgb. -/
def sceneColor (uv : ℝ × ℝ) (t : ℝ) : Vec3 := (sceneFrag uv t).1

/-- FragColor alpha. -/
def sceneAlpha (uv : ℝ × ℝ) (t : ℝ) : ℝ := (sceneFrag uv t).2

/-- Divisors of the source-level divisions inside one foliage layer, in
evaluation order and guarded exactly as in the source: the band test
reaches the heightNorm division by (top - bottom); the triangle test
|p.x| < layerWidth reaches the shade division by max(layerWidth, 0.01) and
the center-brightening division by layerWidth itself. -/
def layerDivisors (bottom top width : ℝ) (p : ℝ × ℝ) : List ℝ :=
  if bottom < p.2 ∧ p.2 < top then
    (top - bottom) ::
      (if |p.1| < width * (1 - (p.2 - bottom) / (top - bottom)) then
        [max (width * (1 - (p.2 - bottom) / (top - bottom))) 0.01,
         width * (1 - (p.2 - bottom) / (top - bottom))]
      else [])
  else []

/-- Every divisor of a source-level division performed when the shader
evaluates the pixel at uv: uResolution.y for the aspect ratio (line 56),
trunkWidth when the trunk branch is taken (line 86), the three layers'
divisors (lines 114, 117, 120 and the two copies), and the constant 8 of
the integer division i/8 once per light iteration (line 206). -/
def divisorsUsed (uv : ℝ × ℝ) (_t : ℝ) : List ℝ :=
  HEIGHT ::
    ((if trunkBottom < (pixelP uv).2 ∧ (pixelP uv).2 < trunkTop ∧
        |(pixelP uv).1| < trunkWidth then [trunkWidth] else []) ++
      layerDivisors layer1Bottom layer1Top layer1Width (pixelP uv) ++
      layerDivisors layer2Bottom layer2Top layer2Width (pixelP uv) ++
      layerDivisors layer3Bottom layer3Top layer3Width (pixelP uv) ++
      List.replicate 12 (8 : ℝ))

end

/-- A star record of parallax.cpp (lines 12-17). -/
structure Star where
  x : ℤ
  y : ℤ
  colorType : ℤ
  brightness : ℤ
  symbol : Char
deriving Repr, DecidableEq

/-- An abstract random source: draw index, lower bound, upper bound to a
value.  Models successive std::uniform_int_distribution(lo, hi)(rng) calls. -/
def Sampler : Type := ℕ → ℤ → ℤ → ℤ

/-- Soundness of a sampler: on a nonempty range [lo, hi] the drawn value
lies in the range.  This is exactly the guarantee the C++ standard gives
for uniform_int_distribution when lo ≤ hi (and nothing is guaranteed
otherwise). -/
def SamplerSound (f : Sampler) : Prop :=
  ∀ n lo hi, lo ≤ hi → lo ≤ f n lo hi ∧ f n lo hi ≤ hi

/-- num_stars = (cols * rows) / 35 (line 52). -/
def numStars (cols rows : ℤ) : ℤ := cols * rows / 35

/-- Symbol choice from brightness (lines 63-66). -/
def starSymbol (b : ℤ) : Char :=
  if 85 < b then '*' else if 65 < b then '+' else if 45 < b then '.' else '.'

/-- One loop iteration (lines 56-69): four successive draws give x in
[3, cols-2], y in [4, rows-2], color_type in [0,7], brightness in [0,100]. -/
def mkStar (cols rows : ℤ) (f : Sampler) (i : ℕ) : Star :=
  let x := f (4 * i) 3 (cols - 2)
  let y := f (4 * i + 1) 4 (rows - 2)
  let c := f (4 * i + 2) 0 7
  let b := f (4 * i + 3) 0 100
  ⟨x, y, c, b, starSymbol b⟩

/-- The generated star list: the loop runs num_stars times (none when
num_stars ≤ 0). -/
def genStars (cols rows : ℤ) (f : Sampler) : List Star :=
  (List.range (numStars cols rows).toNat).map (mkStar cols rows f)

/-- The (lo, hi) bounds of the uniform_int_distribution objects constructed
in an iteration of the generation loop (lines 58-61); empty when the loop
never runs. -/
def distRanges (cols rows : ℤ) : List (ℤ × ℤ) :=
  if 1 ≤ numStars cols rows then
    [(3, cols - 2), (4, rows - 2), (0, 7), (0, 100)]
  else []

/-! Helper lemmas about the GLSL primitives. -/

lemma clamp01_nonneg (x : ℝ) : 0 ≤ clamp x 0 1 :=
  le_min (le_max_right x 0) zero_le_one

lemma clamp01_le_one (x : ℝ) : clamp x 0 1 ≤ 1 := min_le_right _ _

lemma clamp01_of_nonpos {x : ℝ} (h : x ≤ 0) : clamp x 0 1 = 0 := by
  unfold clamp
  rw [max_eq_right h, min_eq_left zero_le_one]

lemma clamp01_of_one_le {x : ℝ} (h : 1 ≤ x) : clamp x 0 1 = 1 := by
  unfold clamp
  rw [max_eq_left (zero_le_one.trans h), min_eq_right h]

lemma clamp01_of_mem {x : ℝ} (h0 : 0 ≤ x) (h1 : x ≤ 1) : clamp x 0 1 = x := by
  unfold clamp
  rw [max_eq_left h0, min_eq_left h1]

lemma clamp01_mono {x y : ℝ} (h : x ≤ y) : clamp x 0 1 ≤ clamp y 0 1 :=
  min_le_min (max_le_max h le_rfl) le_rfl

lemma hermite_nonneg {t : ℝ} (_h0 : 0 ≤ t) (h1 : t ≤ 1) : 0 ≤ t * t * (3 - 2 * t) := by
  nlinarith

lemma hermite_le_one {t : ℝ} (h0 : 0 ≤ t) (_h1 : t ≤ 1) : t * t * (3 - 2 * t) ≤ 1 := by
  nlinarith [sq_nonneg (1 - t), mul_nonneg (sq_nonneg (1 - t)) h0]

lemma hermite_mono {a b : ℝ} (h0 : 0 ≤ a) (hab : a ≤ b) (h1 : b ≤ 1) :
    a * a * (3 - 2 * a) ≤ b * b * (3 - 2 * b) := by
  nlinarith [mul_nonneg (sub_nonneg.2 hab) (mul_nonneg h0 (sub_nonneg.2 (hab.trans h1))),
    mul_nonneg (sub_nonneg.2 hab) (mul_nonneg (h0.trans hab) (sub_nonneg.2 h1)),
    pow_nonneg (sub_nonneg.2 hab) 3]

lemma smoothstep_nonneg (e0 e1 x : ℝ) : 0 ≤ smoothstep e0 e1 x := by
  unfold smoothstep
  exact hermite_nonneg (clamp01_nonneg _) (clamp01_le_one _)

lemma smoothstep_le_one (e0 e1 x : ℝ) : smoothstep e0 e1 x ≤ 1 := by
  unfold smoothstep
  exact hermite_le_one (clamp01_nonneg _) (clamp01_le_one _)

lemma smoothstep_of_ratio_nonpos {e0 e1 x : ℝ} (h : (x - e0) / (e1 - e0) ≤ 0) :
    smoothstep e0 e1 x = 0 := by
  unfold smoothstep
  rw [clamp01_of_nonpos h]
  ring

lemma smoothstep_of_one_le_ratio {e0 e1 x : ℝ} (h : 1 ≤ (x - e0) / (e1 - e0)) :
    smoothstep e0 e1 x = 1 := by
  unfold smoothstep
  rw [clamp01_of_one_le h]
  ring

/-- Forward smoothstep (edge0 < edge1) is 0 below the first edge. -/
lemma smoothstep_fwd_zero {e0 e1 x : ℝ} (he : e0 < e1) (hx : x ≤ e0) :
    smoothstep e0 e1 x = 0 :=
  smoothstep_of_ratio_nonpos
    (div_nonpos_iff.2 (Or.inr ⟨sub_nonpos.2 hx, (sub_pos.2 he).le⟩))

/-- Forward smoothstep (edge0 < edge1) is 1 above the second edge. -/
lemma smoothstep_fwd_one {e0 e1 x : ℝ} (he : e0 < e1) (hx : e1 ≤ x) :
    smoothstep e0 e1 x = 1 := by
  refine smoothstep_of_one_le_ratio ?_
  rw [le_div_iff (sub_pos.2 he)]
  linarith

/-- Reversed smoothstep (edge1 < edge0) is 0 above the first edge. -/
lemma smoothstep_rev_zero {e0 e1 x : ℝ} (he : e1 < e0) (hx : e0 ≤ x) :
    smoothstep e0 e1 x = 0 :=
  smoothstep_of_ratio_nonpos
    (div_nonpos_iff.2 (Or.inl ⟨sub_nonneg.2 hx, (sub_neg.2 he).le⟩))

/-- Reversed smoothstep (edge1 < edge0) is 1 below the second edge. -/
lemma smoothstep_rev_one {e0 e1 x : ℝ} (he : e1 < e0) (hx : x ≤ e1) :
    smoothstep e0 e1 x = 1 := by
  refine smoothstep_of_one_le_ratio ?_
  rw [le_div_iff_of_neg (sub_neg.2 he)]
  linarith

/-- Forward smoothstep is monotone in its argument. -/
lemma smoothstep_mono {e0 e1 x y : ℝ} (he : e0 < e1) (hxy : x ≤ y) :
    smoothstep e0 e1 x ≤ smoothstep e0 e1 y := by
  unfold smoothstep
  have hq : (x - e0) / (e1 - e0) ≤ (y - e0) / (e1 - e0) :=
    (div_le_div_right (sub_pos.2 he)).2 (by linarith)
  exact hermite_mono (clamp01_nonneg _) (clamp01_mono hq) (clamp01_le_one _)

lemma dist2_nonneg (a b : ℝ × ℝ) : 0 ≤ dist2 a b := Real.sqrt_nonneg _

/-- The distance dominates the vertical separation. -/
lemma abs_dy_le_dist2 (a b : ℝ × ℝ) : |a.2 - b.2| ≤ dist2 a b := by
  unfold dist2 length2
  dsimp only
  rw [show |a.2 - b.2| = Real.sqrt ((a.2 - b.2) ^ 2) from (Real.sqrt_sq_eq_abs _).symm]
  exact Real.sqrt_le_sqrt (by nlinarith [sq_nonneg (a.1 - b.1)])

/-- The distance dominates the horizontal separation. -/
lemma abs_dx_le_dist2 (a b : ℝ × ℝ) : |a.1 - b.1| ≤ dist2 a b := by
  unfold dist2 length2
  dsimp only
  rw [show |a.1 - b.1| = Real.sqrt ((a.1 - b.1) ^ 2) from (Real.sqrt_sq_eq_abs _).symm]
  exact Real.sqrt_le_sqrt (by nlinarith [sq_nonneg (a.2 - b.2)])

/-- Distance of vertically aligned points. -/
lemma dist2_vertical (a y1 y2 : ℝ) : dist2 (a, y1) (a, y2) = |y1 - y2| := by
  unfold dist2 length2
  rw [show (a - a) ^ 2 + (y1 - y2) ^ 2 = (y1 - y2) ^ 2 by ring, Real.sqrt_sq_eq_abs]

lemma mixR_zero (a b : ℝ) : mixR a b 0 = a := by unfold mixR; ring

lemma mix3_zero (a b : Vec3) : mix3 a b 0 = a := by
  unfold mix3
  ext <;> simp [mixR_zero]

lemma smul_zero3 (v : Vec3) : Vec3.smul 0 v = ⟨0, 0, 0⟩ := by
  unfold Vec3.smul
  ext <;> simp

lemma add_zero3 (v : Vec3) : Vec3.add v ⟨0, 0, 0⟩ = v := by
  unfold Vec3.add
  ext <;> simp

lemma hash_eq_fract (n : ℝ) : hash n = Int.fract (Real.sin n * 43758.5453123) := rfl

lemma hash_nonneg (n : ℝ) : 0 ≤ hash n := by
  rw [hash_eq_fract]
  exact Int.fract_nonneg _

lemma hash_lt_one (n : ℝ) : hash n < 1 := by
  rw [hash_eq_fract]
  exact Int.fract_lt_one _

lemma gsign_mem (x : ℝ) : -1 ≤ gsign x ∧ gsign x ≤ 1 := by
  unfold gsign
  split <;> [norm_num; split <;> norm_num]

/-- The blink value of light i at time t, before the side-visibility
factor, lies in [0.3, 1]. -/
lemma blinkPre_mem (t : ℝ) (i : ℕ) :
    0.3 ≤ 0.3 + 0.7 * (0.5 + 0.5 * Real.sin (t * blinkSpeed i + blinkPhase i)) ^ 2 ∧
      0.3 + 0.7 * (0.5 + 0.5 * Real.sin (t * blinkSpeed i + blinkPhase i)) ^ 2 ≤ 1 := by
  have hs1 := Real.sin_le_one (t * blinkSpeed i + blinkPhase i)
  have hs2 := Real.neg_one_le_sin (t * blinkSpeed i + blinkPhase i)
  constructor <;> nlinarith [sq_nonneg (0.5 + 0.5 * Real.sin (t * blinkSpeed i + blinkPhase i))]

/-- The full blink value of light i at time t (after side visibility)
lies in [0, 1]. -/
lemma blink_mem (p : ℝ × ℝ) (t : ℝ) (i : ℕ) (acc : Vec3 × ℝ) :
    0 ≤ (lightEval p t i acc).2.2 ∧ (lightEval p t i acc).2.2 ≤ 1 := by
  have hpre := blinkPre_mem t i
  have hg := gsign_mem (lightPosAt t i).1
  have hprod : -1 ≤ gsign (lightPosAt t i).1 * rotPhase t ∧
      gsign (lightPosAt t i).1 * rotPhase t ≤ 1 := by
    have habs : |gsign (lightPosAt t i).1 * rotPhase t| ≤ 1 := by
      rw [abs_mul]
      unfold rotPhase
      exact mul_le_one (abs_le.2 hg) (abs_nonneg _) (Real.abs_sin_le_one _)
    exact abs_le.1 habs
  show 0 ≤ (0.3 + 0.7 * (0.5 + 0.5 * Real.sin (t * blinkSpeed i + blinkPhase i)) ^ 2) *
      (0.3 + 0.7 * (0.5 + 0.5 * gsign (lightPosAt t i).1 * rotPhase t)) ∧ _
  constructor
  · apply mul_nonneg (by linarith [hpre.1]) (by nlinarith [hprod.1])
  · exact mul_le_one hpre.2 (by nlinarith [hprod.1]) (by nlinarith [hprod.2])

/-- The edge-glow stage never changes the alpha component. -/
lemma edgeGlowStage_alpha (acc : Vec3 × ℝ) : (edgeGlowStage acc).2 = acc.2 := by
  unfold edgeGlowStage
  split <;> rfl

/-- All divisors produced by one foliage layer are nonzero as long as the
layer's band is nondegenerate: the heightNorm divisor is top - bottom,
the shade divisor is clamped to at least 0.01, and the center-brightening
divisor layerWidth is strictly positive whenever its guarding test
|p.x| < layerWidth was passed. -/
lemma layerDivisors_ne_zero {bottom top width : ℝ} (hbt : bottom < top) (p : ℝ × ℝ) :
    ∀ d ∈ layerDivisors bottom top width p, d ≠ 0 := by
  intro d hd
  unfold layerDivisors at hd
  by_cases hband : bottom < p.2 ∧ p.2 < top
  · rw [if_pos hband] at hd
    rcases List.mem_cons.1 hd with h | h
    · rw [h]
      exact sub_ne_zero.2 hbt.ne'
    · by_cases hw : |p.1| < width * (1 - (p.2 - bottom) / (top - bottom))
      · rw [if_pos hw] at h
        rcases List.mem_cons.1 h with h1 | h1
        · rw [h1]
          exact (lt_of_lt_of_le (by norm_num) (le_max_right _ _)).ne'
        · rw [List.mem_singleton.1 h1]
          exact (lt_of_le_of_lt (abs_nonneg p.1) hw).ne'
      · rw [if_neg hw] at h
        exact absurd h (List.not_mem_nil d)
  · rw [if_neg hband] at hd
    exact absurd hd (List.not_mem_nil d)

/-! Stage bound lemmas, toward the alpha range of the whole pixel
evaluation. -/

lemma trunkStage_alpha_mem (p : ℝ × ℝ) (rp : ℝ) (acc : Vec3 × ℝ)
    (h : 0 ≤ acc.2 ∧ acc.2 ≤ 1) :
    0 ≤ (trunkStage p rp acc).2 ∧ (trunkStage p rp acc).2 ≤ 1 := by
  unfold trunkStage
  split
  · exact ⟨smoothstep_nonneg _ _ _, smoothstep_le_one _ _ _⟩
  · exact h

lemma layerStage_alpha_mem (bottom top width : ℝ) (p : ℝ × ℝ) (rp : ℝ) (acc : Vec3 × ℝ)
    (h : 0 ≤ acc.2 ∧ acc.2 ≤ 1) :
    0 ≤ (layerStage bottom top width p rp acc).2 ∧
      (layerStage bottom top width p rp acc).2 ≤ 1 := by
  unfold layerStage
  split
  · dsimp only
    split
    · exact ⟨le_trans h.1 (le_max_left _ _), max_le h.2 (smoothstep_le_one _ _ _)⟩
    · exact h
  · exact h

/-- The alpha component of one lights-loop iteration, written with the
blink projection. -/
lemma lightBody_alpha (p : ℝ × ℝ) (t : ℝ) (i : ℕ) (acc : Vec3 × ℝ) :
    (lightBody p t i acc).2 =
      max acc.2 (smoothstep 0.025 0.005 (dist2 p (lightPosAt t i)) * (lightEval p t i acc).2.2 +
        smoothstep 0.07 0.01 (dist2 p (lightPosAt t i)) * (lightEval p t i acc).2.2 * 0.5 * 0.5) :=
  rfl

lemma lightBody_alpha_mem (p : ℝ × ℝ) (t : ℝ) (i : ℕ) (acc : Vec3 × ℝ)
    (h : 0 ≤ acc.2 ∧ acc.2 ≤ 1.25) :
    0 ≤ (lightBody p t i acc).2 ∧ (lightBody p t i acc).2 ≤ 1.25 := by
  rw [lightBody_alpha]
  have hb := blink_mem p t i acc
  have hs1n := smoothstep_nonneg 0.025 0.005 (dist2 p (lightPosAt t i))
  have hs1o := smoothstep_le_one 0.025 0.005 (dist2 p (lightPosAt t i))
  have hs2n := smoothstep_nonneg 0.07 0.01 (dist2 p (lightPosAt t i))
  have hs2o := smoothstep_le_one 0.07 0.01 (dist2 p (lightPosAt t i))
  have hc1 : smoothstep 0.025 0.005 (dist2 p (lightPosAt t i)) * (lightEval p t i acc).2.2 ≤ 1 :=
    mul_le_one hs1o hb.1 hb.2
  have hc1n : 0 ≤ smoothstep 0.025 0.005 (dist2 p (lightPosAt t i)) * (lightEval p t i acc).2.2 :=
    mul_nonneg hs1n hb.1
  have hc2 : smoothstep 0.07 0.01 (dist2 p (lightPosAt t i)) * (lightEval p t i acc).2.2 ≤ 1 :=
    mul_le_one hs2o hb.1 hb.2
  have hc2n : 0 ≤ smoothstep 0.07 0.01 (dist2 p (lightPosAt t i)) * (lightEval p t i acc).2.2 :=
    mul_nonneg hs2n hb.1
  constructor
  · exact le_trans h.1 (le_max_left _ _)
  · exact max_le h.2 (by nlinarith)

lemma lightsStage_alpha_mem (p : ℝ × ℝ) (t : ℝ) (acc : Vec3 × ℝ)
    (h : 0 ≤ acc.2 ∧ acc.2 ≤ 1) :
    0 ≤ (lightsStage p t acc).2 ∧ (lightsStage p t acc).2 ≤ 1.25 := by
  unfold lightsStage
  have key : ∀ (l : List ℕ) (a : Vec3 × ℝ), 0 ≤ a.2 ∧ a.2 ≤ 1.25 →
      0 ≤ (l.foldl (fun b i => lightBody p t i b) a).2 ∧
        (l.foldl (fun b i => lightBody p t i b) a).2 ≤ 1.25 := by
    intro l
    induction l with
    | nil => intro a ha; exact ha
    | cons j l ih =>
      intro a ha
      rw [List.foldl_cons]
      exact ih _ (lightBody_alpha_mem p t j a ha)
  exact key _ acc ⟨h.1, h.2.trans (by norm_num)⟩

lemma starPulse_mem (t : ℝ) : 0.6 ≤ starPulse t ∧ starPulse t ≤ 1 := by
  unfold starPulse
  constructor <;>
    nlinarith [Real.sin_le_one (t * 3.0), Real.neg_one_le_sin (t * 3.0)]

lemma starShapeAt_mem (p : ℝ × ℝ) (t : ℝ) :
    0.015 ≤ starShapeAt p t ∧ starShapeAt p t ≤ 0.04 := by
  unfold starShapeAt
  have hp := starPulse_mem t
  have hs0 : (0 : ℝ) ≤ |Real.sin (starAngleAt p * 2.5 + 0.5)| ^ 2 :=
    pow_nonneg (abs_nonneg _) 2
  have hs1 : |Real.sin (starAngleAt p * 2.5 + 0.5)| ^ 2 ≤ 1 := by
    nlinarith [Real.abs_sin_le_one (starAngleAt p * 2.5 + 0.5),
      abs_nonneg (Real.sin (starAngleAt p * 2.5 + 0.5))]
  constructor <;> nlinarith [hp.1, hp.2]

lemma starGlowAt_mem (p : ℝ × ℝ) (t : ℝ) : 0 ≤ starGlowAt p t ∧ starGlowAt p t ≤ 0.6 := by
  unfold starGlowAt
  have hn := smoothstep_nonneg 0.1 0.0 (dist2 p starPos)
  have ho := smoothstep_le_one 0.1 0.0 (dist2 p starPos)
  have hp := starPulse_mem t
  constructor <;> nlinarith [hp.1, hp.2]

lemma starRaysAt_mem (p : ℝ × ℝ) (t : ℝ) : 0 ≤ starRaysAt p t ∧ starRaysAt p t ≤ 0.4 := by
  unfold starRaysAt
  have hn := smoothstep_nonneg 0.12 0.02 (dist2 p starPos)
  have ho := smoothstep_le_one 0.12 0.02 (dist2 p starPos)
  have hp := starPulse_mem t
  have hr0 : (0 : ℝ) ≤ |Real.sin (starAngleAt p * 5.0 + t * 1.2)| ^ 4 :=
    pow_nonneg (abs_nonneg _) 4
  have hr2 : |Real.sin (starAngleAt p * 5.0 + t * 1.2)| ^ 2 ≤ 1 := by
    nlinarith [Real.abs_sin_le_one (starAngleAt p * 5.0 + t * 1.2),
      abs_nonneg (Real.sin (starAngleAt p * 5.0 + t * 1.2))]
  have hr1 : |Real.sin (starAngleAt p * 5.0 + t * 1.2)| ^ 4 ≤ 1 := by
    nlinarith [hr2, pow_nonneg (abs_nonneg (Real.sin (starAngleAt p * 5.0 + t * 1.2))) 2]
  constructor
  · exact mul_nonneg (mul_nonneg (mul_nonneg hn hr0) (by norm_num))
      (le_trans (by norm_num) hp.1)
  · nlinarith [hp.1, hp.2, mul_nonneg hn hr0]

lemma starBodyAt_mem (p : ℝ × ℝ) (t : ℝ) : 0 ≤ starBodyAt p t ∧ starBodyAt p t ≤ 1 :=
  ⟨smoothstep_nonneg _ _ _, smoothstep_le_one _ _ _⟩

lemma starStage_alpha_mem (p : ℝ × ℝ) (t : ℝ) (acc : Vec3 × ℝ)
    (h : 0 ≤ acc.2 ∧ acc.2 ≤ 1.25) :
    0 ≤ (starStage p t acc).2 ∧ (starStage p t acc).2 ≤ 1.68 := by
  unfold starStage
  dsimp only
  have hb := starBodyAt_mem p t
  have hg := starGlowAt_mem p t
  have hr := starRaysAt_mem p t
  constructor
  · exact le_trans h.1 (le_max_left _ _)
  · exact max_le (h.2.trans (by norm_num)) (by nlinarith [hb.1, hb.2, hg.1, hg.2, hr.1, hr.2])

lemma vignette_mem (uv : ℝ × ℝ) : 0 ≤ vignette uv ∧ vignette uv ≤ 1 := by
  unfold vignette
  have hn := smoothstep_nonneg 0.4 0.7 (dist2 uv (0.5, 0.5))
  have ho := smoothstep_le_one 0.4 0.7 (dist2 uv (0.5, 0.5))
  constructor <;> linarith

lemma shapes_alpha_mem (uv : ℝ × ℝ) (t : ℝ) :
    0 ≤ (shapes uv t).2 ∧ (shapes uv t).2 ≤ 1.68 := by
  unfold shapes
  dsimp only
  apply starStage_alpha_mem
  apply lightsStage_alpha_mem
  apply layerStage_alpha_mem
  apply layerStage_alpha_mem
  apply layerStage_alpha_mem
  apply trunkStage_alpha_mem
  unfold acc0
  norm_num

/-- The star stage alpha dominates the summed star intensities. -/
lemma star_term_le_shapes (uv : ℝ × ℝ) (t : ℝ) :
    starBodyAt (pixelP uv) t + starGlowAt (pixelP uv) t * 0.8 +
      starRaysAt (pixelP uv) t * 0.5 ≤ (shapes uv t).2 := by
  unfold shapes
  dsimp only
  unfold starStage
  dsimp only
  exact le_max_right _ _

/-! Stage evaluation lemmas at specific pixels. -/

lemma rotPhase_zero : rotPhase 0 = 0 := by
  unfold rotPhase rotAngle
  rw [show (0 : ℝ) * 0.5 = 0 by norm_num, Real.sin_zero]

lemma starPulse_zero : starPulse 0 = 0.8 := by
  unfold starPulse
  rw [show (0 : ℝ) * 3.0 = 0 by norm_num, Real.sin_zero]
  norm_num

lemma trunkStage_skip (p : ℝ × ℝ) (rp : ℝ) (acc : Vec3 × ℝ)
    (h : ¬(trunkBottom < p.2 ∧ p.2 < trunkTop ∧ |p.1| < trunkWidth)) :
    trunkStage p rp acc = acc := by
  unfold trunkStage
  rw [if_neg h]

lemma layerStage_skip_band (bottom top width : ℝ) (p : ℝ × ℝ) (rp : ℝ) (acc : Vec3 × ℝ)
    (h : ¬(bottom < p.2 ∧ p.2 < top)) :
    layerStage bottom top width p rp acc = acc := by
  unfold layerStage
  rw [if_neg h]

/-- Full evaluation of a layer stage when both guards hold. -/
lemma layerStage_pos_eval (bottom top width px py rp : ℝ) (acc : Vec3 × ℝ)
    (hband : bottom < py ∧ py < top)
    (hin : |px| < width * (1 - (py - bottom) / (top - bottom))) :
    layerStage bottom top width (px, py) rp acc =
      (Vec3.add
        (mix3 ⟨0.0, 0.18, 0.1⟩ ⟨0.0, 0.45, 0.25⟩
          ((0.6 + 0.4 * (0.5 + 0.5 * rp *
            (px / max (width * (1 - (py - bottom) / (top - bottom))) 0.01))) *
            (0.85 + 0.15 * ((py - bottom) / (top - bottom)))))
        (Vec3.smul ((1 - |px| / (width * (1 - (py - bottom) / (top - bottom)))) * 0.5)
          ⟨0.0, 0.15, 0.08⟩),
       max acc.2 (smoothstep (width * (1 - (py - bottom) / (top - bottom)))
         (width * (1 - (py - bottom) / (top - bottom)) - 0.015) |px|)) := by
  unfold layerStage
  dsimp only
  rw [if_pos hband, if_pos hin]

/-- A lights-loop iteration is the identity at a pixel at distance at
least 0.07 from the (jittered) light position. -/
lemma lightBody_far (p : ℝ × ℝ) (t : ℝ) (i : ℕ) (acc : Vec3 × ℝ)
    (hd : 0.07 ≤ dist2 p (lightPosAt t i)) (h0 : 0 ≤ acc.2) :
    lightBody p t i acc = acc := by
  have hc : smoothstep 0.025 0.005 (dist2 p (lightPosAt t i)) = 0 :=
    smoothstep_rev_zero (by norm_num) (le_trans (by norm_num) hd)
  have hg : smoothstep 0.07 0.01 (dist2 p (lightPosAt t i)) = 0 :=
    smoothstep_rev_zero (by norm_num) hd
  unfold lightBody lightEval
  dsimp only
  rw [hc, hg]
  simp only [zero_mul, mix3_zero, smul_zero3, add_zero3, add_zero, mul_zero]
  rw [max_eq_left h0]

/-- The whole lights loop is the identity when the pixel is at distance at
least 0.07 from all twelve (jittered) lights. -/
lemma lightsStage_far (p : ℝ × ℝ) (t : ℝ) (acc : Vec3 × ℝ) (h0 : 0 ≤ acc.2)
    (hf : ∀ i < 12, 0.07 ≤ dist2 p (lightPosAt t i)) :
    lightsStage p t acc = acc := by
  unfold lightsStage
  have key : ∀ l : List ℕ, (∀ i ∈ l, 0.07 ≤ dist2 p (lightPosAt t i)) →
      l.foldl (fun a i => lightBody p t i a) acc = acc := by
    intro l
    induction l with
    | nil => intro _; rfl
    | cons j l ih =>
      intro hmem
      rw [List.foldl_cons, lightBody_far p t j acc (hmem j (List.mem_cons_self _ _)) h0]
      exact ih fun i hi => hmem i (List.mem_cons_of_mem _ hi)
  exact key _ fun i hi => hf i (List.mem_range.1 hi)

/-- The star stage is the identity at a pixel at distance at least 0.12
from the star anchor. -/
lemma starStage_far (p : ℝ × ℝ) (t : ℝ) (acc : Vec3 × ℝ)
    (hd : 0.12 ≤ dist2 p starPos) (h0 : 0 ≤ acc.2) :
    starStage p t acc = acc := by
  have hs := starShapeAt_mem p t
  have hbody : starBodyAt p t = 0 := by
    unfold starBodyAt
    exact smoothstep_rev_zero (by nlinarith [hs.1]) (le_trans (hs.2.trans (by norm_num)) hd)
  have hglow : starGlowAt p t = 0 := by
    unfold starGlowAt
    rw [smoothstep_rev_zero (by norm_num) (le_trans (by norm_num) hd)]
    ring
  have hrays : starRaysAt p t = 0 := by
    unfold starRaysAt
    rw [smoothstep_rev_zero (by norm_num) hd]
    ring
  unfold starStage
  rw [hbody, hglow, hrays]
  simp only [add_zero, zero_add, mix3_zero, zero_mul, mul_zero]
  rw [max_eq_left h0]

/-- The jitter moves a light's x coordinate by at most 0.015. -/
lemma lightPosAt_x_bound (t : ℝ) (i : ℕ) :
    |(lightPosAt t i).1 - (lightPos0 i).1| ≤ 0.015 := by
  unfold lightPosAt
  dsimp only
  rw [add_sub_cancel_left, abs_mul]
  calc |Real.sin (rotAngle t + (i : ℝ) * 0.5)| * |(0.015 : ℝ)|
      ≤ 1 * |(0.015 : ℝ)| :=
        mul_le_mul_of_nonneg_right (Real.abs_sin_le_one _) (abs_nonneg _)
    _ ≤ 0.015 := by norm_num [abs, max_def]

/-- A pixel horizontally at least 0.085 away from a light's anchor is at
least 0.07 away from its jittered position. -/
lemma far_of_x (p : ℝ × ℝ) (t : ℝ) (i : ℕ)
    (h : 0.085 ≤ |p.1 - (lightPos0 i).1|) : 0.07 ≤ dist2 p (lightPosAt t i) := by
  have hb := lightPosAt_x_bound t i
  have key := abs_sub_le p.1 (lightPosAt t i).1 (lightPos0 i).1
  have h2 : 0.07 ≤ |p.1 - (lightPosAt t i).1| := by linarith
  exact le_trans h2 (abs_dx_le_dist2 _ _)

/-- A pixel vertically at least 0.07 away from a light's anchor is at
least 0.07 away from its jittered position (the jitter is horizontal). -/
lemma far_of_y (p : ℝ × ℝ) (t : ℝ) (i : ℕ)
    (h : 0.07 ≤ |p.2 - (lightPos0 i).2|) : 0.07 ≤ dist2 p (lightPosAt t i) := by
  refine le_trans ?_ (abs_dy_le_dist2 p (lightPosAt t i))
  rw [show (lightPosAt t i).2 = (lightPos0 i).2 from rfl]
  exact h

/-! Claim theorems. -/

/-- C1 counterexample: at normalized coordinate (0.5, 0.735), inside the
unit square, and time 0, the final FragColor alpha exceeds 1: the pixel
sits 0.005 below the star center, where the star body coverage is 1 and
the star glow adds about 0.38 more, the alpha stages combine by max and
sum, and the vignette there is exactly 1. -/
theorem scene_alpha_exceeds_one : 1 < sceneAlpha (0.5, 0.735) 0 := by
  have hp : pixelP (0.5, 0.735) = (0, 0.385) := by
    unfold pixelP aspect WIDTH HEIGHT
    norm_num [Prod.mk.injEq]
  have hdist : dist2 ((0 : ℝ), (0.385 : ℝ)) starPos = 0.005 := by
    rw [show starPos = ((0 : ℝ), (0.38 : ℝ)) from rfl, dist2_vertical,
      abs_of_nonneg (by norm_num : (0 : ℝ) ≤ 0.385 - 0.38)]
    norm_num
  have hss : 0.02 ≤ starShapeAt (0, 0.385) 0 ∧ starShapeAt (0, 0.385) 0 ≤ 0.032 := by
    unfold starShapeAt
    rw [starPulse_zero]
    have hs0 : (0 : ℝ) ≤ |Real.sin (starAngleAt ((0 : ℝ), (0.385 : ℝ)) * 2.5 + 0.5)| ^ 2 :=
      pow_nonneg (abs_nonneg _) 2
    have hs1 : |Real.sin (starAngleAt ((0 : ℝ), (0.385 : ℝ)) * 2.5 + 0.5)| ^ 2 ≤ 1 := by
      nlinarith [Real.abs_sin_le_one (starAngleAt ((0 : ℝ), (0.385 : ℝ)) * 2.5 + 0.5),
        abs_nonneg (Real.sin (starAngleAt ((0 : ℝ), (0.385 : ℝ)) * 2.5 + 0.5))]
    constructor <;> nlinarith
  have hbody : starBodyAt (0, 0.385) 0 = 1 := by
    unfold starBodyAt
    rw [hdist]
    exact smoothstep_rev_one (by nlinarith [hss.1]) (by nlinarith [hss.1])
  have hsm : smoothstep 0.1 0.0 0.005 = 0.99275 := by
    unfold smoothstep
    rw [show ((0.005 : ℝ) - 0.1) / (0.0 - 0.1) = 0.95 by norm_num,
      clamp01_of_mem (by norm_num) (by norm_num)]
    norm_num
  have hglow : starGlowAt (0, 0.385) 0 = 0.99275 * 0.6 * 0.8 := by
    unfold starGlowAt
    rw [hdist, starPulse_zero, hsm]
  have hrays := starRaysAt_mem ((0 : ℝ), (0.385 : ℝ)) 0
  have hterm := star_term_le_shapes (0.5, 0.735) 0
  rw [hp] at hterm
  have hvig : vignette (0.5, 0.735) = 1 := by
    unfold vignette
    rw [dist2_vertical, abs_of_nonneg (by norm_num : (0 : ℝ) ≤ 0.735 - 0.5),
      smoothstep_fwd_zero (by norm_num) (by norm_num)]
    norm_num
  have halpha : sceneAlpha (0.5, 0.735) 0 =
      (shapes (0.5, 0.735) 0).2 * vignette (0.5, 0.735) := by
    unfold sceneAlpha sceneFrag
    dsimp only
    rw [edgeGlowStage_alpha]
  rw [halpha, hvig, mul_one]
  calc (1 : ℝ) < 1 + 0.99275 * 0.6 * 0.8 * 0.8 + 0 * 0.5 := by norm_num
    _ ≤ starBodyAt (0, 0.385) 0 + starGlowAt (0, 0.385) 0 * 0.8 +
        starRaysAt (0, 0.385) 0 * 0.5 := by
        rw [hbody, hglow]
        have := hrays.1
        nlinarith
    _ ≤ (shapes (0.5, 0.735) 0).2 := hterm

/-- C1 amended: for every normalized coordinate and every time, the final
FragColor alpha lies in [0, 1.68].  The upper bound is not 1: the star
stage's alpha term star + 0.8*starGlow + 0.5*starRays can reach beyond 1
(star ≤ 1, starGlow ≤ 0.6, starRays ≤ 0.4 give the 1.68 bound), and the
light stage can reach 1.25; the vignette multiplies by a factor in
[0, 1]. -/
theorem scene_alpha_bounds (uv : ℝ × ℝ) (t : ℝ) :
    0 ≤ sceneAlpha uv t ∧ sceneAlpha uv t ≤ 1.68 := by
  have hs := shapes_alpha_mem uv t
  have hv := vignette_mem uv
  have halpha : sceneAlpha uv t = (shapes uv t).2 * vignette uv := by
    unfold sceneAlpha sceneFrag
    dsimp only
    rw [edgeGlowStage_alpha]
  rw [halpha]
  constructor
  · exact mul_nonneg hs.1 hv.1
  · calc (shapes uv t).2 * vignette uv ≤ (shapes uv t).2 * 1 :=
        mul_le_mul_of_nonneg_left hv.2 hs.1
      _ = (shapes uv t).2 := mul_one _
      _ ≤ 1.68 := hs.2

/-- Full pixel evaluation at normalized (0.5, 0.2), time 0: the pixel maps
to centered p = (0, -0.15), which misses the trunk band (the trunk spans
-0.30 < y < -0.22) and hits foliage layer 1 with local half-width 247/1400
and heightNorm 9/28; lights, star and edge glow leave the accumulator
unchanged and the vignette is 1 there. -/
lemma sceneFrag_at_A :
    sceneFrag (0.5, 0.2) 0 =
      ((⟨0, 31431 / 70000, 17345 / 70000⟩ : Vec3), (1 : ℝ)) := by
  have hp : pixelP (0.5, 0.2) = (0, -0.15) := by
    unfold pixelP aspect WIDTH HEIGHT
    norm_num [Prod.mk.injEq]
  have htrunk : trunkStage ((0 : ℝ), (-0.15 : ℝ)) (rotPhase 0) acc0 = acc0 :=
    trunkStage_skip _ _ _ (by norm_num [trunkBottom, trunkTop, trunkHeight])
  have hband1 : layer1Bottom < (-0.15 : ℝ) ∧ (-0.15 : ℝ) < layer1Top := by
    simp only [layer1Bottom, layer1Top]
    norm_num
  have hin1 : |(0 : ℝ)| <
      layer1Width * (1 - ((-0.15 : ℝ) - layer1Bottom) / (layer1Top - layer1Bottom)) := by
    simp only [layer1Bottom, layer1Top, layer1Width, abs_zero]
    norm_num
  have hW : layer1Width * (1 - ((-0.15 : ℝ) - layer1Bottom) / (layer1Top - layer1Bottom)) =
      247 / 1400 := by
    simp only [layer1Bottom, layer1Top, layer1Width]
    norm_num
  have hH : ((-0.15 : ℝ) - layer1Bottom) / (layer1Top - layer1Bottom) = 9 / 28 := by
    simp only [layer1Bottom, layer1Top]
    norm_num
  have hsm1 : smoothstep (247 / 1400 : ℝ) (247 / 1400 - 0.015) |(0 : ℝ)| = 1 := by
    rw [abs_zero]
    exact smoothstep_rev_one (by norm_num) (by norm_num)
  have hlayer1 : layerStage layer1Bottom layer1Top layer1Width ((0 : ℝ), (-0.15 : ℝ))
      (rotPhase 0) acc0 = ((⟨0, 31431 / 70000, 17345 / 70000⟩ : Vec3), (1 : ℝ)) := by
    rw [rotPhase_zero,
      layerStage_pos_eval layer1Bottom layer1Top layer1Width 0 (-0.15) 0 acc0 hband1 hin1,
      hW, hH, hsm1, show acc0.2 = (0 : ℝ) from rfl]
    norm_num [Prod.mk.injEq, Vec3.mk.injEq, mix3, mixR, Vec3.add, Vec3.smul,
      zero_div, abs_zero, max_def]
  have hskip2 : layerStage layer2Bottom layer2Top layer2Width ((0 : ℝ), (-0.15 : ℝ))
      (rotPhase 0) ((⟨0, 31431 / 70000, 17345 / 70000⟩ : Vec3), (1 : ℝ)) =
      ((⟨0, 31431 / 70000, 17345 / 70000⟩ : Vec3), (1 : ℝ)) :=
    layerStage_skip_band _ _ _ _ _ _ (by norm_num [layer2Bottom, layer2Top, layer1Bottom])
  have hskip3 : layerStage layer3Bottom layer3Top layer3Width ((0 : ℝ), (-0.15 : ℝ))
      (rotPhase 0) ((⟨0, 31431 / 70000, 17345 / 70000⟩ : Vec3), (1 : ℝ)) =
      ((⟨0, 31431 / 70000, 17345 / 70000⟩ : Vec3), (1 : ℝ)) :=
    layerStage_skip_band _ _ _ _ _ _
      (by norm_num [layer3Bottom, layer3Top, layer2Bottom, layer1Bottom])
  have hfarA : ∀ i < 12, 0.07 ≤ dist2 ((0 : ℝ), (-0.15 : ℝ)) (lightPosAt 0 i) := by
    intro i hi
    interval_cases i
    · exact far_of_x _ _ _ (by norm_num [lightPos0, abs, max_def])
    · exact far_of_x _ _ _ (by norm_num [lightPos0, abs, max_def])
    · exact far_of_y _ _ _ (by norm_num [lightPos0, abs, max_def])
    · exact far_of_x _ _ _ (by norm_num [lightPos0, abs, max_def])
    · exact far_of_y _ _ _ (by norm_num [lightPos0, abs, max_def])
    · exact far_of_y _ _ _ (by norm_num [lightPos0, abs, max_def])
    · exact far_of_y _ _ _ (by norm_num [lightPos0, abs, max_def])
    · exact far_of_y _ _ _ (by norm_num [lightPos0, abs, max_def])
    · exact far_of_y _ _ _ (by norm_num [lightPos0, abs, max_def])
    · exact far_of_y _ _ _ (by norm_num [lightPos0, abs, max_def])
    · exact far_of_y _ _ _ (by norm_num [lightPos0, abs, max_def])
    · exact far_of_y _ _ _ (by norm_num [lightPos0, abs, max_def])
  have hlights : lightsStage ((0 : ℝ), (-0.15 : ℝ)) 0
      ((⟨0, 31431 / 70000, 17345 / 70000⟩ : Vec3), (1 : ℝ)) =
      ((⟨0, 31431 / 70000, 17345 / 70000⟩ : Vec3), (1 : ℝ)) :=
    lightsStage_far _ _ _ (by norm_num) hfarA
  have hdA : 0.12 ≤ dist2 ((0 : ℝ), (-0.15 : ℝ)) starPos := by
    rw [show starPos = ((0 : ℝ), (0.38 : ℝ)) from rfl]
    refine le_trans ?_ (abs_dy_le_dist2 _ _)
    norm_num [abs, max_def]
  have hstar : starStage ((0 : ℝ), (-0.15 : ℝ)) 0
      ((⟨0, 31431 / 70000, 17345 / 70000⟩ : Vec3), (1 : ℝ)) =
      ((⟨0, 31431 / 70000, 17345 / 70000⟩ : Vec3), (1 : ℝ)) :=
    starStage_far _ _ _ hdA (by norm_num)
  have hshapes : shapes (0.5, 0.2) 0 =
      ((⟨0, 31431 / 70000, 17345 / 70000⟩ : Vec3), (1 : ℝ)) := by
    unfold shapes
    dsimp only
    rw [hp, htrunk, hlayer1, hskip2, hskip3, hlights, hstar]
  have hedge : edgeGlowStage ((⟨0, 31431 / 70000, 17345 / 70000⟩ : Vec3), (1 : ℝ)) =
      ((⟨0, 31431 / 70000, 17345 / 70000⟩ : Vec3), (1 : ℝ)) := by
    unfold edgeGlowStage
    rw [if_neg (by norm_num)]
  have hvig : vignette (0.5, 0.2) = 1 := by
    unfold vignette
    rw [dist2_vertical, abs_of_nonpos (by norm_num : (0.2 : ℝ) - 0.5 ≤ 0),
      smoothstep_fwd_zero (by norm_num) (by norm_num)]
    norm_num
  unfold sceneFrag
  dsimp only
  rw [hshapes, hedge, hvig]
  norm_num [Prod.mk.injEq]

/-- The pixel at normalized (0.02, 0.02), time 0, misses every shape: the
pre-vignette accumulator is exactly the initial (vec3(0), 0). -/
lemma shapes_at_B : shapes (0.02, 0.02) 0 = acc0 := by
  have hp : pixelP (0.02, 0.02) = (-12 / 35, -0.33) := by
    unfold pixelP aspect WIDTH HEIGHT
    norm_num [Prod.mk.injEq]
  have htrunk : trunkStage ((-12 / 35 : ℝ), (-0.33 : ℝ)) (rotPhase 0) acc0 = acc0 :=
    trunkStage_skip _ _ _ (by norm_num [trunkBottom, trunkTop, trunkHeight])
  have hskip1 : layerStage layer1Bottom layer1Top layer1Width ((-12 / 35 : ℝ), (-0.33 : ℝ))
      (rotPhase 0) acc0 = acc0 :=
    layerStage_skip_band _ _ _ _ _ _ (by norm_num [layer1Bottom, layer1Top])
  have hskip2 : layerStage layer2Bottom layer2Top layer2Width ((-12 / 35 : ℝ), (-0.33 : ℝ))
      (rotPhase 0) acc0 = acc0 :=
    layerStage_skip_band _ _ _ _ _ _ (by norm_num [layer2Bottom, layer2Top, layer1Bottom])
  have hskip3 : layerStage layer3Bottom layer3Top layer3Width ((-12 / 35 : ℝ), (-0.33 : ℝ))
      (rotPhase 0) acc0 = acc0 :=
    layerStage_skip_band _ _ _ _ _ _
      (by norm_num [layer3Bottom, layer3Top, layer2Bottom, layer1Bottom])
  have hfarB : ∀ i < 12, 0.07 ≤ dist2 ((-12 / 35 : ℝ), (-0.33 : ℝ)) (lightPosAt 0 i) := by
    intro i hi
    interval_cases i <;> exact far_of_x _ _ _ (by norm_num [lightPos0, abs, max_def])
  have hlights : lightsStage ((-12 / 35 : ℝ), (-0.33 : ℝ)) 0 acc0 = acc0 :=
    lightsStage_far _ _ _ (by norm_num [acc0]) hfarB
  have hdB : 0.12 ≤ dist2 ((-12 / 35 : ℝ), (-0.33 : ℝ)) starPos := by
    rw [show starPos = ((0 : ℝ), (0.38 : ℝ)) from rfl]
    refine le_trans ?_ (abs_dy_le_dist2 _ _)
    norm_num [abs, max_def]
  have hstar : starStage ((-12 / 35 : ℝ), (-0.33 : ℝ)) 0 acc0 = acc0 :=
    starStage_far _ _ _ hdB (by norm_num [acc0])
  unfold shapes
  dsimp only
  rw [hp, htrunk, hskip1, hskip2, hskip3, hlights, hstar]

/-- C4 counterexample: at normalized (0.5, 0.20) and time 0 the shader
does not produce a brown-toned trunk color: the red channel of the
resulting FragColor is exactly 0 (a brown tone has a dominant, strictly
positive red channel) while the green channel is strictly positive — the
pixel is foliage green, because p = (0, -0.15) lies above the trunk band
(-0.30, -0.22) and inside foliage layer 1. -/
theorem pixel_half_020_not_brown :
    (sceneColor (0.5, 0.2) 0).x = 0 ∧ 0 < (sceneColor (0.5, 0.2) 0).y := by
  unfold sceneColor
  rw [sceneFrag_at_A]
  norm_num

/-- C4 amended: with resolution 200x280 and time 0, the pixel at
normalized (0.5, 0.20) yields nonzero alpha and a green-toned foliage
color (green strictly exceeds red and blue; the trunk band lies lower, at
normalized y between 0.05 and 0.13), and the pixel at (0.02, 0.02) yields
alpha exactly 0 before the vignette multiplication. -/
theorem endtoend_scenario_amended :
    0 < sceneAlpha (0.5, 0.2) 0 ∧
    (sceneColor (0.5, 0.2) 0).x < (sceneColor (0.5, 0.2) 0).y ∧
    (sceneColor (0.5, 0.2) 0).z < (sceneColor (0.5, 0.2) 0).y ∧
    (shapes (0.02, 0.02) 0).2 = 0 := by
  refine ⟨?_, ?_, ?_, ?_⟩
  · unfold sceneAlpha
    rw [sceneFrag_at_A]
    norm_num
  · unfold sceneColor
    rw [sceneFrag_at_A]
    norm_num
  · unfold sceneColor
    rw [sceneFrag_at_A]
    norm_num
  · rw [shapes_at_B]
    rfl

/-- C2 counterexample: at centered height p.y = 0 both the layer-1 band
test and the layer-2 band test of the shader hold simultaneously, so the
three foliage bands are not pairwise disjoint as the claim states. -/
theorem layer_bands_overlap_at_zero : inLayer1Band 0 ∧ inLayer2Band 0 := by
  simp only [inLayer1Band, inLayer2Band, layer1Bottom, layer1Top, layer2Bottom, layer2Top]
  norm_num

/-- C2 amended: the three vertical bands are not pairwise disjoint; the
bands of adjacent layers overlap (1 with 2, and 2 with 3), while layers 1
and 3 can never hold together, since band 1 ends below the bottom of
band 3. -/
theorem layer_bands_partial_overlap :
    (∀ y : ℝ, inLayer1Band y → y < layer3Bottom) ∧
    (∀ y : ℝ, inLayer3Band y → layer1Top < y) ∧
    (∃ y : ℝ, inLayer1Band y ∧ inLayer2Band y) ∧
    (∃ y : ℝ, inLayer2Band y ∧ inLayer3Band y) := by
  simp only [inLayer1Band, inLayer2Band, inLayer3Band, layer1Bottom, layer1Top,
    layer2Bottom, layer2Top, layer3Bottom, layer3Top]
  refine ⟨fun y h => by linarith [h.2], fun y h => by linarith [h.1],
    ⟨0, by norm_num⟩, ⟨0.1, by norm_num⟩⟩

/-- C2 witness: the amended disjointness applied at y = 0, which lies in
band 1 and hence below the bottom of band 3. -/
theorem layer_bands_partial_overlap_witness : (0 : ℝ) < layer3Bottom :=
  layer_bands_partial_overlap.1 0
    (by simp only [inLayer1Band, layer1Bottom, layer1Top]; norm_num)

/-- C3 counterexample: at light 0 and the time that makes the sine
argument zero, the blink brightness computed by the shader is
0.3 + 0.7*(0.5)^2 = 0.475, while the claim's formula
0.3 + 0.7*sin^2(t*blinkSpeed + blinkPhase) gives 0.3; the two disagree. -/
theorem blink_not_sin_squared :
    (lightEval (0, 0) (-(blinkPhase 0) / blinkSpeed 0) 0 acc0).2.1 ≠
      0.3 + 0.7 *
        Real.sin ((-(blinkPhase 0) / blinkSpeed 0) * blinkSpeed 0 + blinkPhase 0) ^ 2 := by
  have hsp : blinkSpeed 0 ≠ 0 := by
    have h := hash_nonneg (((0 : ℕ) : ℝ) + 5.0)
    unfold blinkSpeed
    intro h0
    nlinarith
  have harg : (-(blinkPhase 0) / blinkSpeed 0) * blinkSpeed 0 + blinkPhase 0 = 0 := by
    rw [div_mul_cancel₀ _ hsp]
    ring
  intro hEq
  rw [show (lightEval (0, 0) (-(blinkPhase 0) / blinkSpeed 0) 0 acc0).2.1 =
      0.3 + 0.7 * (0.5 + 0.5 *
        Real.sin ((-(blinkPhase 0) / blinkSpeed 0) * blinkSpeed 0 + blinkPhase 0)) ^ 2
    from rfl] at hEq
  rw [harg, Real.sin_zero] at hEq
  norm_num at hEq

/-- C3 amended: for every light index and time, the pre-side-visibility
blink brightness used by the lights loop equals
0.3 + 0.7*(0.5 + 0.5*sin(t*blinkSpeed(i) + blinkPhase(i)))^2, with
blinkPhase(i) = i*0.8 + hash(i)*6.28 and blinkSpeed(i) = 2 + hash(i+5)*2
(a squared raised sinusoid, not 0.3 + 0.7*sin^2). -/
theorem blink_closed_form (p : ℝ × ℝ) (t : ℝ) (i : ℕ) (acc : Vec3 × ℝ) :
    (lightEval p t i acc).2.1 =
      0.3 + 0.7 * (0.5 + 0.5 * Real.sin (t * blinkSpeed i + blinkPhase i)) ^ 2 := rfl

/-- C5: the blink pattern of a light is a pure function of its index and
the time: the blink value before side visibility and the final blink value
computed inside the lights loop do not depend on the pixel being shaded
nor on the running color/alpha accumulator, so any two evaluations with
the same (i, t) agree. -/
theorem blink_pixel_independent (p q : ℝ × ℝ) (acc acc' : Vec3 × ℝ) (i : ℕ) (t : ℝ) :
    (lightEval p t i acc).2 = (lightEval q t i acc').2 := rfl

/-- C6: the vignette factor is exactly 1 at the output center, exactly 0
at every point whose distance from the center is at least 0.7, and is
non-increasing as a function of that distance. -/
theorem vignette_properties :
    vignette (0.5, 0.5) = 1 ∧
    (∀ uv : ℝ × ℝ, 0.7 ≤ dist2 uv (0.5, 0.5) → vignette uv = 0) ∧
    (∀ a b : ℝ × ℝ, dist2 a (0.5, 0.5) ≤ dist2 b (0.5, 0.5) →
      vignette b ≤ vignette a) := by
  refine ⟨?_, ?_, ?_⟩
  · unfold vignette
    rw [dist2_vertical, smoothstep_fwd_zero (by norm_num) (by norm_num)]
    norm_num
  · intro uv h
    unfold vignette
    rw [smoothstep_fwd_one (by norm_num) h]
    norm_num
  · intro a b h
    unfold vignette
    have := smoothstep_mono (show (0.4 : ℝ) < 0.7 by norm_num) h
    linarith

/-- C6 witness: the vignette vanishes at (0.5, 1.3), at distance 0.8 from
the center, and does not increase between distances 0.1 and 0.4. -/
theorem vignette_properties_witness :
    vignette (0.5, 1.3) = 0 ∧ vignette (0.5, 0.9) ≤ vignette (0.5, 0.6) := by
  constructor
  · apply vignette_properties.2.1
    rw [dist2_vertical, abs_of_nonneg (by norm_num : (0 : ℝ) ≤ 1.3 - 0.5)]
    norm_num
  · apply vignette_properties.2.2
    rw [dist2_vertical, dist2_vertical,
      abs_of_nonneg (by norm_num : (0 : ℝ) ≤ 0.6 - 0.5),
      abs_of_nonneg (by norm_num : (0 : ℝ) ≤ 0.9 - 0.5)]
    norm_num

/-- C7: the edge-glow stage adds exactly edgeGlowTerm of the accumulated
alpha to the color; that contribution is the zero vector whenever
alpha ≤ 0.1 or alpha ≥ 0.95 (boundaries included, since the source tests
are strict), and for every alpha strictly between 0.1 and 0.95 it is a
nonzero tint: zero red, strictly positive green and blue. -/
theorem edge_glow_boundaries :
    (∀ acc : Vec3 × ℝ, edgeGlowStage acc = (Vec3.add acc.1 (edgeGlowTerm acc.2), acc.2)) ∧
    (∀ a : ℝ, a ≤ 0.1 → edgeGlowTerm a = ⟨0, 0, 0⟩) ∧
    (∀ a : ℝ, 0.95 ≤ a → edgeGlowTerm a = ⟨0, 0, 0⟩) ∧
    (∀ a : ℝ, 0.1 < a → a < 0.95 →
      (edgeGlowTerm a).x = 0 ∧ 0 < (edgeGlowTerm a).y ∧ 0 < (edgeGlowTerm a).z) := by
  refine ⟨?_, ?_, ?_, ?_⟩
  · intro acc
    unfold edgeGlowStage edgeGlowTerm
    by_cases h : 0.1 < acc.2 ∧ acc.2 < 0.95
    · rw [if_pos h, if_pos h]
    · rw [if_neg h, if_neg h, add_zero3]
  · intro a h
    unfold edgeGlowTerm
    rw [if_neg]
    intro hc
    linarith [hc.1]
  · intro a h
    unfold edgeGlowTerm
    rw [if_neg]
    intro hc
    linarith [hc.2]
  · intro a h1 h2
    unfold edgeGlowTerm
    rw [if_pos ⟨h1, h2⟩]
    unfold Vec3.smul
    refine ⟨by norm_num, by nlinarith, by nlinarith⟩

/-- C7 witness: the contribution is zero exactly at the boundary alphas
0.1 and 0.95, and nonzero at alpha 0.5. -/
theorem edge_glow_boundaries_witness :
    edgeGlowTerm 0.1 = ⟨0, 0, 0⟩ ∧ edgeGlowTerm 0.95 = ⟨0, 0, 0⟩ ∧
      (edgeGlowTerm 0.5).x = 0 ∧ 0 < (edgeGlowTerm 0.5).y ∧ 0 < (edgeGlowTerm 0.5).z :=
  ⟨edge_glow_boundaries.2.1 0.1 le_rfl, edge_glow_boundaries.2.2.1 0.95 le_rfl,
    edge_glow_boundaries.2.2.2 0.5 (by norm_num) (by norm_num)⟩

/-- C8: every divisor of a source-level division performed during the
pixel evaluation is nonzero: the resolution denominator is the constant
280, the trunk divisor the constant 0.045, each layer's heightNorm divisor
a nonzero band height, the shade divisor is clamped to at least 0.01, the
center-brightening divisor layerWidth is strictly positive because it is
guarded by |p.x| < layerWidth, and the light color index divisor is 8. -/
theorem scene_divisors_nonzero (uv : ℝ × ℝ) (t : ℝ) :
    ∀ d ∈ divisorsUsed uv t, d ≠ 0 := by
  intro d hd
  unfold divisorsUsed at hd
  rcases List.mem_cons.1 hd with h | h
  · rw [h]
    unfold HEIGHT
    norm_num
  · simp only [List.mem_append] at h
    rcases h with ((((h | h) | h) | h) | h)
    · by_cases htr : trunkBottom < (pixelP uv).2 ∧ (pixelP uv).2 < trunkTop ∧
        |(pixelP uv).1| < trunkWidth
      · rw [if_pos htr] at h
        rw [List.mem_singleton.1 h]
        unfold trunkWidth
        norm_num
      · rw [if_neg htr] at h
        exact absurd h (List.not_mem_nil d)
    · exact layerDivisors_ne_zero
        (by simp only [layer1Top, layer1Bottom]; norm_num) (pixelP uv) d h
    · exact layerDivisors_ne_zero
        (by simp only [layer2Top, layer2Bottom, layer1Bottom]; norm_num) (pixelP uv) d h
    · exact layerDivisors_ne_zero
        (by simp only [layer3Top, layer3Bottom, layer2Bottom, layer1Bottom]; norm_num)
        (pixelP uv) d h
    · rw [List.eq_of_mem_replicate h]
      norm_num

/-- C8 witness: the aspect-ratio divisor 280 is among the divisors used at
a concrete pixel, and it is nonzero. -/
theorem scene_divisors_nonzero_witness :
    (280 : ℝ) ∈ divisorsUsed (0.5, 0.2) 0 ∧ (280 : ℝ) ≠ 0 := by
  have hmem : (280 : ℝ) ∈ divisorsUsed (0.5, 0.2) 0 := by
    unfold divisorsUsed HEIGHT
    exact List.mem_cons_self _ _
  exact ⟨hmem, scene_divisors_nonzero (0.5, 0.2) 0 280 hmem⟩

/-- C9: with columns = 80 and rows = 24 the painter generates exactly
(80*24)/35 = 54 stars, and as long as each uniform draw respects its
requested nonempty range (the standard's guarantee), every star position
satisfies 3 ≤ x ≤ 78 = cols-2 and 4 ≤ y ≤ 22 = rows-2. -/
theorem starfield_count_and_bounds (f : Sampler) (hf : SamplerSound f) :
    (genStars 80 24 f).length = 54 ∧
      ∀ s ∈ genStars 80 24 f, 3 ≤ s.x ∧ s.x ≤ 78 ∧ 4 ≤ s.y ∧ s.y ≤ 22 := by
  constructor
  · simp only [genStars, List.length_map, List.length_range]
    decide
  · intro s hs
    simp only [genStars, List.mem_map] at hs
    obtain ⟨i, hi, rfl⟩ := hs
    have hx := hf (4 * i) 3 (80 - 2) (by norm_num)
    have hy := hf (4 * i + 1) 4 (24 - 2) (by norm_num)
    exact ⟨hx.1, by norm_num at hx; exact hx.2, hy.1, by norm_num at hy; exact hy.2⟩

/-- C9 witness: instantiated with the sampler that always returns the
lower bound of the requested range. -/
theorem starfield_count_and_bounds_witness :
    (genStars 80 24 (fun _ lo _ => lo)).length = 54 :=
  (starfield_count_and_bounds (fun _ lo _ => lo) (fun _ _ _ h => ⟨le_rfl, h⟩)).1

/-- C10: if the computed star count is at least 1 while columns < 5 (or
rows < 6), the generation loop runs and constructs a
uniform_int_distribution whose lower bound exceeds its upper bound — an
empty range, which the C++ standard leaves undefined; under the
precondition columns ≥ 5 and rows ≥ 6 every sampled position satisfies
3 ≤ x ≤ cols-2 and 4 ≤ y ≤ rows-2. -/
theorem star_sampling_precondition :
    (∀ cols rows : ℤ, 1 ≤ numStars cols rows → cols < 5 →
      (3, cols - 2) ∈ distRanges cols rows ∧ cols - 2 < 3) ∧
    (∀ cols rows : ℤ, 1 ≤ numStars cols rows → rows < 6 →
      (4, rows - 2) ∈ distRanges cols rows ∧ rows - 2 < 4) ∧
    (∀ (cols rows : ℤ) (f : Sampler), 5 ≤ cols → 6 ≤ rows → SamplerSound f →
      ∀ s ∈ genStars cols rows f,
        3 ≤ s.x ∧ s.x ≤ cols - 2 ∧ 4 ≤ s.y ∧ s.y ≤ rows - 2) := by
  refine ⟨?_, ?_, ?_⟩
  · intro cols rows hn hc
    unfold distRanges
    rw [if_pos hn]
    exact ⟨by simp, by linarith⟩
  · intro cols rows hn hr
    unfold distRanges
    rw [if_pos hn]
    exact ⟨by simp, by linarith⟩
  · intro cols rows f hc hr hf s hs
    simp only [genStars, List.mem_map] at hs
    obtain ⟨i, hi, rfl⟩ := hs
    have hx := hf (4 * i) 3 (cols - 2) (by linarith)
    have hy := hf (4 * i + 1) 4 (rows - 2) (by linarith)
    exact ⟨hx.1, hx.2, hy.1, hy.2⟩

/-- C10 witness: columns = 4, rows = 9 give star count 36/35 = 1, so the
loop runs and the x distribution is constructed on the empty range
[3, 2]. -/
theorem star_sampling_precondition_witness :
    ((3 : ℤ), (4 : ℤ) - 2) ∈ distRanges 4 9 ∧ (4 : ℤ) - 2 < 3 :=
  star_sampling_precondition.1 4 9 (by decide) (by decide)

end Kitty
